import Mathlib

/-!
Verification of the baasbot_v2 strategy-evaluation engine.

Shallow embedding of the Python sources into Lean 4:

* `transaction_costs.py` — `CostModel`, `TransactionCostCalculator.calculate_entry_cost`
  and `calculate_roundtrip_cost`.  Python floats are modelled as `ℚ`; the one failure
  mode (`effective_price = .../quantity` raising `ZeroDivisionError` when
  `quantity == 0`) is modelled with `Except`.
* `strategy_base.py` — `calculate_positions` (signal → position fill-forward) and the
  numeric core of `backtest` (per-bar strategy returns, compounded equity curve,
  max drawdown).  A pandas `NaN` cell is modelled as `none : Option ℚ`; pandas
  comparisons against `NaN` are `False`, `cumprod`/`expanding().max()`/`min()` skip
  `NaN`, which the definitions reproduce explicitly.
* the five strategy files — `generate_signals` for the mean-reversion, momentum,
  MACD, trend-following and Bollinger variants over a bar table modelled as an
  association list of named columns (a missing column raises `KeyError`, as pandas
  column access does; no custom exception classes exist anywhere in the repository).
* `strategy_comparison.py` — `StrategyComparison.run_comparison`, with each
  strategy's `backtest` outcome modelled as an `Except` value and
  `DataFrame.sort_values('Sharpe Ratio', ascending=False)` modelled as a sort by
  descending Sharpe ratio (on an empty result list pandas raises `KeyError`,
  because `pd.DataFrame([])` has no `'Sharpe Ratio'` column).
-/

/-- Exception values that the modelled Python code can raise.  The source defines
no custom exception classes; `zeroDivisionError` and `keyError` are the Python
built-ins actually raised.  `invalidQuantityError`, `missingIndicatorError` and
`configurationError` are the error classes named by the specification (they occur
nowhere in the code) and exist here only so that statements can compare the two. -/
inductive Err where
  | zeroDivisionError
  | keyError
  | invalidQuantityError
  | missingIndicatorError
  | configurationError
deriving DecidableEq

deriving instance DecidableEq for Except

/-! ## transaction_costs.py -/

/-- Order side, the `side` string argument of `calculate_entry_cost`
(`"buy"` vs anything else, which the source treats as sell). -/
inductive Side where
  | buy
  | sell
deriving DecidableEq

/-- `CostModel` dataclass (transaction_costs.py lines 11-18). -/
structure CostModel where
  commission_pct : ℚ
  commission_min : ℚ
  spread_pct : ℚ
  slippage_pct : ℚ
  market_impact : ℚ
deriving DecidableEq

/-- The dataclass defaults: 0% commission, $0 minimum, 0.01% spread, 0.05% slippage. -/
def defaultCostModel : CostModel :=
  { commission_pct := 0
    commission_min := 0
    spread_pct := 1 / 100
    slippage_pct := 5 / 100
    market_impact := 0 }

/-- The dictionary returned by `calculate_entry_cost`. -/
structure CostBreakdown where
  gross_value : ℚ
  commission : ℚ
  spread_cost : ℚ
  slippage_cost : ℚ
  total_cost : ℚ
  effective_price : ℚ
deriving DecidableEq

/-- `TransactionCostCalculator.calculate_entry_cost` (transaction_costs.py lines 27-67).
The arithmetic is exactly the source's; the only operation that can fail is the
division `effective_price = (gross_value ± total_cost) / quantity`, which in Python
raises `ZeroDivisionError` when `quantity == 0` (there is no quantity validation in
the source). -/
def calculate_entry_cost (m : CostModel) (price quantity : ℚ) (side : Side) :
    Except Err CostBreakdown :=
  let gross_value := price * quantity
  let commission := max (gross_value * m.commission_pct / 100) m.commission_min
  let spread_cost := gross_value * m.spread_pct / 100
  let slippage_cost := gross_value * m.slippage_pct / 100
  let total_cost := commission + spread_cost + slippage_cost
  if quantity = 0 then Except.error Err.zeroDivisionError
  else
    let effective_price :=
      match side with
      | Side.buy => (gross_value + total_cost) / quantity
      | Side.sell => (gross_value - total_cost) / quantity
    Except.ok
      { gross_value := gross_value
        commission := commission
        spread_cost := spread_cost
        slippage_cost := slippage_cost
        total_cost := total_cost
        effective_price := effective_price }

/-- `TransactionCostCalculator.calculate_roundtrip_cost` (transaction_costs.py
lines 69-78): entry cost of a buy at `entry_price` plus entry cost of a sell at
`exit_price`. -/
def calculate_roundtrip_cost (m : CostModel) (entry_price exit_price quantity : ℚ) :
    Except Err ℚ := do
  let entry ← calculate_entry_cost m entry_price quantity Side.buy
  let exitc ← calculate_entry_cost m exit_price quantity Side.sell
  pure (entry.total_cost + exitc.total_cost)

/-! ## strategy_base.py — positions, strategy returns, equity curve, max drawdown

Signals are integers (1 = buy, -1 = sell, 0 = hold), closes are rationals; a
pandas `NaN` cell is `none : Option ℚ`. -/

/-- Auxiliary scan for `calculate_positions`: `replace(0, nan).ffill().fillna(0)`
keeps, at each bar, the most recent non-zero signal (`cur`, initially 0). -/
def posAux (cur : ℤ) : List ℤ → List ℤ
  | [] => []
  | s :: rest => (if s = 0 then cur else s) :: posAux (if s = 0 then cur else s) rest

/-- `StrategyBase.calculate_positions` (strategy_base.py line 52):
`result['signal'].replace(0, np.nan).ffill().fillna(0)` — each bar's position is
the most recent non-zero signal, 0 before any non-zero signal.  Note the source
forward-fills `-1` itself (it does not map a sell to 0). -/
def calculate_positions (signals : List ℤ) : List ℤ :=
  posAux 0 signals

/-- Tail of `pct_change`: `some (c / prev - 1)` for each bar after the first. -/
def pctAux (prev : ℚ) : List ℚ → List (Option ℚ)
  | [] => []
  | c :: rest => some (c / prev - 1) :: pctAux c rest

/-- `close.pct_change()` (technical_indicators.py line 82): `NaN` at bar 0, then
the simple return `close_i / close_{i-1} - 1`. -/
def pct_change : List ℚ → List (Option ℚ)
  | [] => []
  | c :: rest => none :: pctAux c rest

/-- Tail of `shift(1)`: every element moves one slot later. -/
def shiftAux (prev : ℤ) : List ℤ → List (Option ℤ)
  | [] => []
  | x :: rest => some prev :: shiftAux x rest

/-- pandas `Series.shift(1)`: `NaN` at slot 0, then the previous elements. -/
def shiftOne : List ℤ → List (Option ℤ)
  | [] => []
  | x :: rest => none :: shiftAux x rest

/-- `NaN`-propagating product of a shifted position and a return
(`position.shift(1) * returns`). -/
def mulOpt : Option ℤ → Option ℚ → Option ℚ
  | some p, some r => some ((p : ℚ) * r)
  | _, _ => none

/-- `with_positions['strategy_returns'] = position.shift(1) * returns`
(strategy_base.py lines 76-78), with `returns = close.pct_change()`. -/
def backtest_strategy_returns (signals : List ℤ) (closes : List ℚ) : List (Option ℚ) :=
  List.zipWith mulOpt (shiftOne (calculate_positions signals)) (pct_change closes)

/-- pandas `Series.cumprod()` with its default `skipna=True`: a `NaN` entry stays
`NaN` in the output and does not enter the running product `acc`. -/
def cumprodAux (acc : ℚ) : List (Option ℚ) → List (Option ℚ)
  | [] => []
  | none :: rest => none :: cumprodAux acc rest
  | some x :: rest => some (acc * x) :: cumprodAux (acc * x) rest

/-- `equity = initial_capital * (1 + strategy_returns).cumprod()`
(strategy_base.py lines 81-83). -/
def backtest_equity (initial : ℚ) (signals : List ℤ) (closes : List ℚ) :
    List (Option ℚ) :=
  (cumprodAux 1 ((backtest_strategy_returns signals closes).map
      (Option.map (fun r => 1 + r)))).map
    (Option.map (fun e => initial * e))

/-- Modelled from the spec wording of claim C2 (refinement side): the strategy
return at bar `i ≥ 1` is the position held at bar `i-1` times the simple return
`close_i / close_{i-1} - 1`; bar 0 has no strategy return.  The scan carries the
previous bar's position and close. -/
def specSRAux (prevPos : ℤ) (prevClose : ℚ) : List ℤ → List ℚ → List (Option ℚ)
  | p :: ps, c :: cs => some ((prevPos : ℚ) * (c / prevClose - 1)) :: specSRAux p c ps cs
  | _, _ => []

/-- Refinement side of claim C2 for the whole table: strategy return undefined at
bar 0, then `specSRAux` over the remaining bars. -/
def spec_strategy_returns (positions : List ℤ) (closes : List ℚ) : List (Option ℚ) :=
  match positions, closes with
  | p :: ps, c :: cs => none :: specSRAux p c ps cs
  | _, _ => []

/-- Refinement side of claim C2 for the equity curve: `acc` is the cumulative
product `Π_{1 ≤ j ≤ i} (1 + strategy_return_j)`, so each defined entry is
`initial * Π(1 + strategy_return_j)`. -/
def specEquityAux (initial acc : ℚ) (prevPos : ℤ) (prevClose : ℚ) :
    List ℤ → List ℚ → List (Option ℚ)
  | p :: ps, c :: cs =>
    some (initial * (acc * (1 + (prevPos : ℚ) * (c / prevClose - 1)))) ::
      specEquityAux initial (acc * (1 + (prevPos : ℚ) * (c / prevClose - 1))) p c ps cs
  | _, _ => []

/-- Refinement side of claim C2: the equity entry at bar 0 is undefined (`NaN` in
the source, because `strategy_returns[0]` is `NaN`), and from bar 1 on it is
`initial` times the running compounded product. -/
def spec_equity (initial : ℚ) (positions : List ℤ) (closes : List ℚ) :
    List (Option ℚ) :=
  match positions, closes with
  | p :: ps, c :: cs => none :: specEquityAux initial 1 p c ps cs
  | _, _ => []

/-- Scan for the running peak and relative drawdown
(`peak = equity.expanding().max(); (equity - peak) / peak`,
strategy_base.py lines 93-94). -/
def ddAux (peak : ℚ) : List ℚ → List ℚ
  | [] => []
  | e :: rest => (e - max peak e) / max peak e :: ddAux (max peak e) rest

/-- The per-bar drawdown series of an equity curve: each entry is
`(equity_i - runningMax_i) / runningMax_i`. -/
def drawdowns : List ℚ → List ℚ
  | [] => []
  | e :: rest => ddAux e (e :: rest)

/-- List minimum as pandas `Series.min()`: `none` on the empty series. -/
def listMin : List ℚ → Option ℚ
  | [] => none
  | x :: rest => some ((listMin rest).elim x (fun m => min x m))

/-- `max_dd = drawdown.min()` (strategy_base.py line 95). -/
def backtest_max_drawdown (equity : List ℚ) : Option ℚ :=
  listMin (drawdowns equity)

/-! ## Strategy signal generation

A bar table is an association list of named columns; each column is a list of
cells, `none` standing for pandas `NaN`.  Column access (`df['name']`) raises
`KeyError` when the column is absent.  The comparisons below reproduce the
pandas semantics that any comparison involving `NaN` is `False`. -/

/-- A DataFrame restricted to what the strategies read: named columns of
`Option ℚ` cells. -/
abbrev Frame := List (String × List (Option ℚ))

/-- `df[name]`: the column when present, otherwise the pandas `KeyError`. -/
def getCol (df : Frame) (name : String) : Except Err (List (Option ℚ)) :=
  match List.lookup name df with
  | some col => Except.ok col
  | none => Except.error Err.keyError

/-- `name in df.columns`. -/
def hasCol (df : Frame) (name : String) : Bool :=
  (List.lookup name df).isSome

/-- The period-specific oscillator column name `rsi_{period}`
(momentum_strategy.py line 25). -/
def rsiColName (period : ℕ) : String :=
  "rsi_" ++ toString period

/-- The moving-average column name `sma_{period}`
(trend_following_strategy.py lines 26 and 32). -/
def smaColName (period : ℕ) : String :=
  "sma_" ++ toString period

/-- `cell > threshold`, `False` on `NaN`. -/
def optGT (o : Option ℚ) (t : ℚ) : Bool :=
  match o with
  | some x => decide (t < x)
  | none => false

/-- `cell < threshold`, `False` on `NaN`. -/
def optLT (o : Option ℚ) (t : ℚ) : Bool :=
  match o with
  | some x => decide (x < t)
  | none => false

/-- `cell ≥ threshold`, `False` on `NaN`. -/
def optGE (o : Option ℚ) (t : ℚ) : Bool :=
  match o with
  | some x => decide (t ≤ x)
  | none => false

/-- `cell ≤ threshold`, `False` on `NaN`. -/
def optLE (o : Option ℚ) (t : ℚ) : Bool :=
  match o with
  | some x => decide (x ≤ t)
  | none => false

/-- `cell_a > cell_b`, `False` when either is `NaN`. -/
def optGT2 (a b : Option ℚ) : Bool :=
  match a, b with
  | some x, some y => decide (y < x)
  | _, _ => false

/-- `cell_a < cell_b`, `False` when either is `NaN`. -/
def optLT2 (a b : Option ℚ) : Bool :=
  match a, b with
  | some x, some y => decide (x < y)
  | _, _ => false

/-- `cell_a ≥ cell_b`, `False` when either is `NaN`. -/
def optGE2 (a b : Option ℚ) : Bool :=
  match a, b with
  | some x, some y => decide (y ≤ x)
  | _, _ => false

/-- `cell_a ≤ cell_b`, `False` when either is `NaN`. -/
def optLE2 (a b : Option ℚ) : Bool :=
  match a, b with
  | some x, some y => decide (x ≤ y)
  | _, _ => false

/-- Generic scan for the edge-triggered strategies: the signal at each bar is a
function of the previous bar's cell (`prev`, initially the shifted-in `NaN`) and
the current bar's cell. -/
def edgeScan {α β : Type} (f : α → α → β) : α → List α → List β
  | _, [] => []
  | prev, c :: rest => f prev c :: edgeScan f c rest

/-- One bar of `MomentumStrategy.generate_signals` (momentum_strategy.py lines
37-49): buy when the oscillator crosses above the threshold (current `>`,
previous `≤`), sell when it crosses below (current `<`, previous `≥`); the sell
mask is applied after the buy mask. -/
def momSigVal (thr : ℚ) (prev cur : Option ℚ) : ℤ :=
  if optLT cur thr && optGE prev thr then -1
  else if optGT cur thr && optLE prev thr then 1
  else 0

/-- The momentum signal column over an oscillator column. -/
def momEdge (thr : ℚ) (rsi : List (Option ℚ)) : List ℤ :=
  edgeScan (momSigVal thr) none rsi

/-- `MomentumStrategy.generate_signals` (momentum_strategy.py lines 21-51):
reads `rsi_{rsi_period}`, falling back to the fixed `rsi_14` column when the
period-specific column is absent, then emits the edge-triggered signals. -/
def momentum_generate_signals (period : ℕ) (thr : ℚ) (df : Frame) :
    Except Err (List ℤ) :=
  let rsiCol := if hasCol df (rsiColName period) then rsiColName period else "rsi_14"
  Except.map (momEdge thr) (getCol df rsiCol)

/-- One bar of `MeanReversionStrategy.generate_signals` (mean_reversion_strategy.py
lines 38-44): level-triggered, buy below the oversold level, sell above the
overbought level; the sell mask is applied after the buy mask. -/
def meanrevSigVal (oversold overbought : ℚ) (cell : Option ℚ) : ℤ :=
  if optGT cell overbought then -1
  else if optLT cell oversold then 1
  else 0

/-- `MeanReversionStrategy.generate_signals`: reads the fixed `rsi_14` column
(no fallback) and maps the level rule over it. -/
def mean_reversion_generate_signals (oversold overbought : ℚ) (df : Frame) :
    Except Err (List ℤ) := do
  let rsi ← getCol df "rsi_14"
  pure (rsi.map (meanrevSigVal oversold overbought))

/-- One bar of `MACDStrategy.generate_signals` (macd_strategy.py lines 24-36):
buy when MACD crosses above its signal line, sell when it crosses below; each
bar carries the pair (MACD cell, signal cell). -/
def macdSigVal (prev cur : Option ℚ × Option ℚ) : ℤ :=
  if optLT2 cur.1 cur.2 && optGE2 prev.1 prev.2 then -1
  else if optGT2 cur.1 cur.2 && optLE2 prev.1 prev.2 then 1
  else 0

/-- The MACD signal column over the `macd` and `macd_signal` columns. -/
def macdEdge (macd msig : List (Option ℚ)) : List ℤ :=
  edgeScan macdSigVal (none, none) (macd.zip msig)

/-- `MACDStrategy.generate_signals`: reads `macd` then `macd_signal` (no
fallback for either) and emits the edge-triggered signals. -/
def macd_generate_signals (df : Frame) : Except Err (List ℤ) := do
  let macd ← getCol df "macd"
  let msig ← getCol df "macd_signal"
  pure (macdEdge macd msig)

/-- One bar of `TrendFollowingStrategy.generate_signals`
(trend_following_strategy.py lines 24-34): level-triggered golden/death cross;
the death-cross mask is applied after the golden-cross mask. -/
def trendSigVal (fast slow : Option ℚ) : ℤ :=
  if optLT2 fast slow then -1
  else if optGT2 fast slow then 1
  else 0

/-- `TrendFollowingStrategy.generate_signals`: reads `sma_{fast}` then
`sma_{slow}` (no fallback) and compares them bar by bar. -/
def trend_generate_signals (fast slow : ℕ) (df : Frame) : Except Err (List ℤ) := do
  let f ← getCol df (smaColName fast)
  let s ← getCol df (smaColName slow)
  pure (List.zipWith trendSigVal f s)

/-- Bar-by-bar rule of `BollingerBreakoutStrategy.generate_signals`
(bollinger_breakout_strategy.py lines 22-26): buy above the upper band, sell
below the lower band; the sell mask is applied after the buy mask. -/
def bollAux : List (Option ℚ) → List (Option ℚ) → List (Option ℚ) → List ℤ
  | c :: cr, u :: ur, l :: lr =>
    (if optLT2 c l then -1 else if optGT2 c u then 1 else 0) :: bollAux cr ur lr
  | _, _, _ => []

/-- `BollingerBreakoutStrategy.generate_signals`: reads `close`, `bb_upper` and
`bb_lower` (no fallback for any of them). -/
def bollinger_generate_signals (df : Frame) : Except Err (List ℤ) := do
  let close ← getCol df "close"
  let upper ← getCol df "bb_upper"
  let lower ← getCol df "bb_lower"
  pure (bollAux close upper lower)

/-- The cell of a column at bar `i` (`NaN` beyond the end, which no in-range
bar ever reads). -/
def atIdx (xs : List (Option ℚ)) (i : ℕ) : Option ℚ :=
  (xs.get? i).getD none

/-- The signal at bar `i` of a signal column (0 beyond the end). -/
def sigAt (xs : List ℤ) (i : ℕ) : ℤ :=
  (xs.get? i).getD 0

/-- Momentum buy condition at bar `k`: oscillator above the threshold. -/
def momBuyCond (thr : ℚ) (rsi : List (Option ℚ)) (k : ℕ) : Bool :=
  optGT (atIdx rsi k) thr

/-- Momentum sell condition at bar `k`: oscillator below the threshold. -/
def momSellCond (thr : ℚ) (rsi : List (Option ℚ)) (k : ℕ) : Bool :=
  optLT (atIdx rsi k) thr

/-- MACD buy condition at bar `k`: MACD above its signal line. -/
def macdBuyCond (macd msig : List (Option ℚ)) (k : ℕ) : Bool :=
  optGT2 (atIdx macd k) (atIdx msig k)

/-- MACD sell condition at bar `k`: MACD below its signal line. -/
def macdSellCond (macd msig : List (Option ℚ)) (k : ℕ) : Bool :=
  optLT2 (atIdx macd k) (atIdx msig k)

/-! ## strategy_comparison.py -/

/-- The performance metrics of one completed backtest
(`strategy_base.py` lines 102-109, without the equity curve). -/
structure BacktestMetrics where
  total_return : ℚ
  sharpe : ℚ
  max_drawdown : ℚ
  win_rate : ℚ
  total_trades : ℕ
deriving DecidableEq

/-- One row of the comparison table (strategy_comparison.py lines 35-42). -/
structure PerfRow where
  strategy : String
  metrics : BacktestMetrics
deriving DecidableEq

/-- The rows collected by the `try`/`except` loop of `run_comparison`
(strategy_comparison.py lines 28-46): one row per strategy whose `backtest`
returned instead of raising; a raising strategy contributes nothing. -/
def successRows (strategies : List (String × Except Err BacktestMetrics)) :
    List PerfRow :=
  strategies.filterMap fun sr =>
    match sr.2 with
    | Except.ok m => some ⟨sr.1, m⟩
    | Except.error _ => none

/-- Ranking order: descending Sharpe ratio
(`sort_values('Sharpe Ratio', ascending=False)`). -/
def sharpeDesc (a b : PerfRow) : Prop :=
  b.metrics.sharpe ≤ a.metrics.sharpe

instance : DecidableRel sharpeDesc :=
  fun a b => inferInstanceAs (Decidable (b.metrics.sharpe ≤ a.metrics.sharpe))

instance : IsTotal PerfRow sharpeDesc :=
  ⟨fun a b => le_total b.metrics.sharpe a.metrics.sharpe⟩

instance : IsTrans PerfRow sharpeDesc :=
  ⟨fun _ _ _ hab hbc => le_trans hbc hab⟩

/-- `StrategyComparison.run_comparison` (strategy_comparison.py lines 24-49):
each strategy's `backtest` is attempted, failures are caught and excluded, and
the collected rows are sorted by descending Sharpe ratio.  When every strategy
fails, `comparison_data` is empty and `pd.DataFrame([]).sort_values('Sharpe
Ratio')` raises `KeyError` (the empty frame has no such column); the sort
itself is modelled as an insertion sort by `sharpeDesc`. -/
def run_comparison (strategies : List (String × Except Err BacktestMetrics)) :
    Except Err (List PerfRow) :=
  let rows := successRows strategies
  if rows.isEmpty then Except.error Err.keyError
  else Except.ok (rows.insertionSort sharpeDesc)

/-! ## Theorems -/

/-- Claim C3: for every cost model, price, quantity > 0 and side,
`calculate_entry_cost` returns the documented breakdown: gross value
`price*quantity`, commission `max(gross*commission_pct/100, commission_min)`,
spread and slippage proportional to gross value, total cost their sum, and
effective price `(gross ± total)/quantity` according to side; and with the default
cost model, `calculate_entry_cost(100, 10, 'buy')` has total cost 0.6 and
effective price 100.06. -/
theorem claim_C3_entry_cost_breakdown :
    (∀ (m : CostModel) (price quantity : ℚ) (side : Side), 0 < quantity →
      ∃ c, calculate_entry_cost m price quantity side = Except.ok c ∧
        c.gross_value = price * quantity ∧
        c.commission = max (c.gross_value * m.commission_pct / 100) m.commission_min ∧
        c.spread_cost = c.gross_value * m.spread_pct / 100 ∧
        c.slippage_cost = c.gross_value * m.slippage_pct / 100 ∧
        c.total_cost = c.commission + c.spread_cost + c.slippage_cost ∧
        c.effective_price =
          (match side with
           | Side.buy => (c.gross_value + c.total_cost) / quantity
           | Side.sell => (c.gross_value - c.total_cost) / quantity)) ∧
    (calculate_entry_cost defaultCostModel 100 10 Side.buy).map
        (fun c => (c.total_cost, c.effective_price)) =
      Except.ok ((3 / 5 : ℚ), (5003 / 50 : ℚ)) := by
  constructor
  · intro m price quantity side hq
    rw [calculate_entry_cost.eq_def, if_neg (ne_of_gt hq)]
    refine ⟨_, rfl, rfl, rfl, rfl, rfl, rfl, ?_⟩
    cases side <;> rfl
  · rw [calculate_entry_cost.eq_def]
    norm_num [defaultCostModel, Except.map]

/-- Witness for claim C3 at the default cost model, price 100, quantity 10, buy. -/
theorem claim_C3_entry_cost_breakdown_witness :
    ∃ c, calculate_entry_cost defaultCostModel 100 10 Side.buy = Except.ok c ∧
      c.gross_value = 100 * 10 ∧
      c.commission = max (c.gross_value * defaultCostModel.commission_pct / 100)
        defaultCostModel.commission_min ∧
      c.spread_cost = c.gross_value * defaultCostModel.spread_pct / 100 ∧
      c.slippage_cost = c.gross_value * defaultCostModel.slippage_pct / 100 ∧
      c.total_cost = c.commission + c.spread_cost + c.slippage_cost ∧
      c.effective_price =
        (match Side.buy with
         | Side.buy => (c.gross_value + c.total_cost) / 10
         | Side.sell => (c.gross_value - c.total_cost) / 10) :=
  claim_C3_entry_cost_breakdown.1 defaultCostModel 100 10 Side.buy (by norm_num)

/-- Claim C8 counterexample: with quantity 0 the code raises `ZeroDivisionError`
(the bare division by zero), not the `InvalidQuantityError` the claim names — no
such class exists in the source. -/
theorem claim_C8_cex :
    calculate_entry_cost defaultCostModel 100 0 Side.buy =
        Except.error Err.zeroDivisionError ∧
      calculate_entry_cost defaultCostModel 100 0 Side.buy ≠
        Except.error Err.invalidQuantityError := by
  refine ⟨rfl, ?_⟩
  intro h
  rw [show calculate_entry_cost defaultCostModel 100 0 Side.buy =
      Except.error Err.zeroDivisionError from rfl] at h
  simp at h

/-- Claim C8 (amended): for every cost model, price and side, quantity 0 makes
`calculate_entry_cost` fail with the built-in `ZeroDivisionError` from the
`effective_price` division; the source has no quantity validation. -/
theorem claim_C8_zero_quantity :
    ∀ (m : CostModel) (price : ℚ) (side : Side),
      calculate_entry_cost m price 0 side = Except.error Err.zeroDivisionError := by
  intro m price side
  rw [calculate_entry_cost.eq_def, if_pos rfl]

/-- Claim C10: `total_cost` is independent of the side (the side only selects the
sign of the adjustment inside `effective_price`), and consequently
`calculate_roundtrip_cost` is symmetric in its two prices. -/
theorem claim_C10_roundtrip_symmetric :
    (∀ (m : CostModel) (price quantity : ℚ),
      (calculate_entry_cost m price quantity Side.buy).map CostBreakdown.total_cost =
        (calculate_entry_cost m price quantity Side.sell).map CostBreakdown.total_cost) ∧
    (∀ (m : CostModel) (a b q : ℚ),
      calculate_roundtrip_cost m a b q = calculate_roundtrip_cost m b a q) := by
  constructor
  · intro m price quantity
    by_cases hq : quantity = 0
    · rw [calculate_entry_cost.eq_def, calculate_entry_cost.eq_def, if_pos hq, if_pos hq]
    · rw [calculate_entry_cost.eq_def, calculate_entry_cost.eq_def, if_neg hq, if_neg hq]
      rfl
  · intro m a b q
    by_cases hq : q = 0
    · simp [calculate_roundtrip_cost, calculate_entry_cost.eq_def, hq]
    · simp only [calculate_roundtrip_cost, calculate_entry_cost.eq_def, if_neg hq]
      show Except.ok _ = Except.ok _
      exact congrArg Except.ok (add_comm _ _)

/-! ### Position translation and backtest pipeline (claims C1, C2) -/

/-- Claim C1 evaluation at the failing input: a Sell signal makes
`calculate_positions` emit and carry forward `-1` (a short position), not the
`0` (flat) that the function's own docstring and the specification state. -/
theorem claim_C1_sell_position_eval :
    calculate_positions [1, -1, 0] = [1, -1, -1] := rfl

/-- The zipped shift/return tail of the backtest pipeline agrees with the
spec-side scan, for any carried position `p` and previous close `c`. -/
theorem zipWith_shiftAux_pctAux (ps : List ℤ) :
    ∀ (cs : List ℚ) (p : ℤ) (c : ℚ),
      List.zipWith mulOpt (shiftAux p ps) (pctAux c cs) = specSRAux p c ps cs := by
  induction ps with
  | nil => intro cs p c; cases cs <;> rfl
  | cons q ps ih =>
    intro cs p c
    cases cs with
    | nil => rfl
    | cons cl cs =>
      show some _ :: List.zipWith mulOpt (shiftAux q ps) (pctAux cl cs) =
        some _ :: specSRAux q cl ps cs
      rw [ih]

/-- The source's `strategy_returns` column equals the spec-side formula
(bar 0 undefined, then previous position times simple return). -/
theorem backtest_strategy_returns_eq (signals : List ℤ) (closes : List ℚ) :
    backtest_strategy_returns signals closes =
      spec_strategy_returns (calculate_positions signals) closes := by
  cases signals with
  | nil => cases closes <;> rfl
  | cons s ss =>
    cases closes with
    | nil => rfl
    | cons c cs =>
      show List.zipWith mulOpt
          (none :: shiftAux (if s = 0 then 0 else s) (posAux (if s = 0 then 0 else s) ss))
          (none :: pctAux c cs) = none :: specSRAux (if s = 0 then 0 else s) c
            (posAux (if s = 0 then 0 else s) ss) cs
      show none :: List.zipWith mulOpt _ _ = none :: _
      rw [zipWith_shiftAux_pctAux]

/-- Scaling and compounding the spec-side returns gives the spec-side equity
scan, for any accumulated product `acc`. -/
theorem cumprod_specSRAux (ps : List ℤ) :
    ∀ (cs : List ℚ) (p : ℤ) (c : ℚ) (acc initial : ℚ),
      (cumprodAux acc ((specSRAux p c ps cs).map (Option.map (fun r => 1 + r)))).map
          (Option.map (fun e => initial * e)) = specEquityAux initial acc p c ps cs := by
  induction ps with
  | nil => intro cs p c acc initial; cases cs <;> rfl
  | cons q ps ih =>
    intro cs p c acc initial
    cases cs with
    | nil => rfl
    | cons cl cs =>
      show some _ :: (cumprodAux _ ((specSRAux q cl ps cs).map _)).map _ = some _ :: _
      rw [ih]

/-- The source's equity column equals the spec-side compounded product scan. -/
theorem backtest_equity_eq (initial : ℚ) (signals : List ℤ) (closes : List ℚ) :
    backtest_equity initial signals closes =
      spec_equity initial (calculate_positions signals) closes := by
  rw [backtest_equity, backtest_strategy_returns_eq]
  cases hp : calculate_positions signals with
  | nil => cases closes <;> rfl
  | cons p ps =>
    cases closes with
    | nil => rfl
    | cons c cs =>
      show none :: (cumprodAux 1 ((specSRAux p c ps cs).map _)).map _ = none :: _
      rw [cumprod_specSRAux]

/-- Claim C2 (amended): for every initial capital, signal sequence and close
sequence, the backtest's strategy-return column is undefined at bar 0 and equals
`position_{i-1} * (close_i / close_{i-1} - 1)` at every later bar, and the equity
column is undefined at bar 0 (`NaN` in the source, not `initial_capital`) and
equals `initial_capital * Π_{1 ≤ j ≤ i} (1 + strategy_return_j)` at every later
bar, as stated by `spec_strategy_returns` and `spec_equity`. -/
theorem claim_C2_backtest_returns_and_equity :
    ∀ (initial : ℚ) (signals : List ℤ) (closes : List ℚ),
      backtest_strategy_returns signals closes =
        spec_strategy_returns (calculate_positions signals) closes ∧
      backtest_equity initial signals closes =
        spec_equity initial (calculate_positions signals) closes :=
  fun initial signals closes =>
    ⟨backtest_strategy_returns_eq signals closes,
     backtest_equity_eq initial signals closes⟩

/-- Claim C2 counterexample: on the one-bar table with close 100 and a hold
signal, the equity entry at bar 0 is undefined (`NaN`), not the initial capital
10000 as the claim states. -/
theorem claim_C2_cex :
    backtest_equity 10000 [0] [100] = [none] ∧
      backtest_equity 10000 [0] [100] ≠ [some (10000 : ℚ)] := by
  refine ⟨rfl, ?_⟩
  intro h
  rw [show backtest_equity 10000 [0] [100] = [none] from rfl] at h
  simp at h

/-! ### Max drawdown (claim C6) -/

/-- A non-empty list has a minimum, the minimum is an element, and it bounds
every element from below (the pandas `Series.min()` contract). -/
theorem listMin_exists (l : List ℚ) (hne : l ≠ []) :
    ∃ m, listMin l = some m ∧ m ∈ l ∧ ∀ y ∈ l, m ≤ y := by
  induction l with
  | nil => exact absurd rfl hne
  | cons x rest ih =>
    cases rest with
    | nil =>
      refine ⟨x, rfl, List.mem_cons_self x [], ?_⟩
      intro y hy
      rcases List.mem_cons.mp hy with h | h
      · exact le_of_eq h.symm
      · exact absurd h (List.not_mem_nil y)
    | cons z zs =>
      obtain ⟨m, hm, hmem, hle⟩ := ih (List.cons_ne_nil z zs)
      refine ⟨min x m, ?_, ?_, ?_⟩
      · show some ((listMin (z :: zs)).elim x fun m => min x m) = some (min x m)
        rw [hm]
        rfl
      · rcases min_choice x m with h | h
        · rw [h]; exact List.mem_cons_self x (z :: zs)
        · rw [h]; exact List.mem_cons_of_mem x hmem
      · intro y hy
        rcases List.mem_cons.mp hy with h | h
        · rw [h]; exact min_le_left x m
        · exact le_trans (min_le_right x m) (hle y h)

/-- Every drawdown entry is non-positive when the carried peak and all equity
values are positive. -/
theorem ddAux_nonpos (l : List ℚ) :
    ∀ (m : ℚ), 0 < m → (∀ e ∈ l, 0 < e) → ∀ d ∈ ddAux m l, d ≤ 0 := by
  induction l with
  | nil => intro m _ _ d hd; exact absurd hd (List.not_mem_nil d)
  | cons e rest ih =>
    intro m hm hpos d hd
    have hmax : (0 : ℚ) < max m e := lt_max_iff.mpr (Or.inl hm)
    rcases List.mem_cons.mp hd with h | h
    · rw [h]
      exact div_nonpos_iff.mpr
        (Or.inr ⟨sub_nonpos.mpr (le_max_right m e), le_of_lt hmax⟩)
    · exact ih (max m e) hmax (fun x hx => hpos x (List.mem_cons_of_mem e hx)) d h

/-- The drawdown scan is identically zero exactly when the equity values, with
the carried peak `m` in front, form a non-decreasing chain. -/
theorem ddAux_allzero_iff (l : List ℚ) :
    ∀ (m : ℚ), 0 < m → (∀ e ∈ l, 0 < e) →
      ((∀ d ∈ ddAux m l, d = 0) ↔ List.Chain (· ≤ ·) m l) := by
  induction l with
  | nil =>
    intro m _ _
    exact ⟨fun _ => List.Chain.nil, fun _ d hd => absurd hd (List.not_mem_nil d)⟩
  | cons e rest ih =>
    intro m hm hpos
    have hpe : 0 < e := hpos e (List.mem_cons_self e rest)
    have hmaxpos : (0 : ℚ) < max m e := lt_max_iff.mpr (Or.inl hm)
    have hposrest : ∀ x ∈ rest, 0 < x := fun x hx => hpos x (List.mem_cons_of_mem e hx)
    constructor
    · intro hall
      have h1 : (e - max m e) / max m e = 0 :=
        hall _ (List.mem_cons_self _ _)
      have hnum : e - max m e = 0 := by
        rcases div_eq_zero_iff.mp h1 with h | h
        · exact h
        · exact absurd h (ne_of_gt hmaxpos)
      have hme : m ≤ e := max_eq_right_iff.mp (sub_eq_zero.mp hnum).symm
      have hmax : max m e = e := max_eq_right hme
      refine List.chain_cons.mpr ⟨hme, ?_⟩
      refine (ih e hpe hposrest).mp ?_
      intro d hd
      refine hall d ?_
      rw [show ddAux m (e :: rest) = (e - max m e) / max m e :: ddAux (max m e) rest
        from rfl, hmax]
      exact List.mem_cons_of_mem _ hd
    · intro hch
      rcases List.chain_cons.mp hch with ⟨hme, hchain⟩
      have hmax : max m e = e := max_eq_right hme
      intro d hd
      rcases List.mem_cons.mp hd with h | h
      · rw [h, hmax, sub_self, zero_div]
      · rw [hmax] at h
        exact (ih e hpe hposrest).mpr hchain d h

/-- Claim C6: for every non-empty, positive equity curve, the max drawdown
`min((equity - running_max) / running_max)` exists, is ≤ 0, and is 0 exactly when
the equity curve is monotonically non-decreasing. -/
theorem claim_C6_max_drawdown (equity : List ℚ) (hne : equity ≠ [])
    (hpos : ∀ e ∈ equity, 0 < e) :
    ∃ d, backtest_max_drawdown equity = some d ∧ d ≤ 0 ∧
      (d = 0 ↔ List.Chain' (· ≤ ·) equity) := by
  cases equity with
  | nil => exact absurd rfl hne
  | cons e rest =>
    have hpe : 0 < e := hpos e (List.mem_cons_self e rest)
    have hposrest : ∀ x ∈ rest, 0 < x := fun x hx => hpos x (List.mem_cons_of_mem e hx)
    have hdd : drawdowns (e :: rest) = 0 :: ddAux e rest := by
      show (e - max e e) / max e e :: ddAux (max e e) rest = 0 :: ddAux e rest
      rw [max_self, sub_self, zero_div]
    obtain ⟨m, hm, hmem, hle⟩ := listMin_exists (drawdowns (e :: rest))
      (by rw [hdd]; exact List.cons_ne_nil _ _)
    refine ⟨m, hm, ?_, ?_⟩
    · exact hle 0 (by rw [hdd]; exact List.mem_cons_self _ _)
    · constructor
      · intro hm0
        have hallz : ∀ d ∈ ddAux e rest, d = 0 := by
          intro d hd
          have h1 : m ≤ d := hle d (by rw [hdd]; exact List.mem_cons_of_mem _ hd)
          have h2 : d ≤ 0 := ddAux_nonpos rest e hpe hposrest d hd
          rw [hm0] at h1
          exact le_antisymm h2 h1
        exact (ddAux_allzero_iff rest e hpe hposrest).mp hallz
      · intro hch
        have hchain : List.Chain (· ≤ ·) e rest := hch
        have hallz := (ddAux_allzero_iff rest e hpe hposrest).mpr hchain
        rw [hdd] at hmem
        rcases List.mem_cons.mp hmem with h | h
        · exact h
        · exact hallz m h

/-- Witness for claim C6 on the concrete equity curve [10, 12, 11]. -/
theorem claim_C6_max_drawdown_witness :
    ∃ d, backtest_max_drawdown [10, 12, 11] = some d ∧ d ≤ 0 ∧
      (d = 0 ↔ List.Chain' (· ≤ ·) ([10, 12, 11] : List ℚ)) :=
  claim_C6_max_drawdown [10, 12, 11] (by decide) (by decide)

/-! ### Edge-triggered signal generation (claim C4) -/

/-- The edge scan preserves the column length. -/
theorem edgeScan_length {α β : Type} (f : α → α → β) :
    ∀ (l : List α) (prev : α), (edgeScan f prev l).length = l.length := by
  intro l
  induction l with
  | nil => intro _; rfl
  | cons c rest ih =>
    intro prev
    show (f prev c :: edgeScan f c rest).length = (c :: rest).length
    rw [List.length_cons, List.length_cons, ih c]

/-- At slot 0 the edge scan sees the initial (shifted-in) previous value. -/
theorem edgeScan_get?_zero {α β : Type} (f : α → α → β) (l : List α) (prev : α) :
    (edgeScan f prev l).get? 0 = (l.get? 0).map (f prev) := by
  cases l <;> rfl

/-- At slot `j + 1` the edge scan sees the column's slot-`j` value as previous. -/
theorem edgeScan_get?_succ {α β : Type} (f : α → α → β) :
    ∀ (l : List α) (prev : α) (j : ℕ) (a : α), l.get? j = some a →
      (edgeScan f prev l).get? (j + 1) = (l.get? (j + 1)).map (f a) := by
  intro l
  induction l with
  | nil =>
    intro prev j a h
    exact absurd h (by simp)
  | cons c rest ih =>
    intro prev j a h
    cases j with
    | zero =>
      have hac : c = a := Option.some.inj h
      show (edgeScan f c rest).get? 0 = (rest.get? 0).map (f a)
      rw [edgeScan_get?_zero, hac]
    | succ k =>
      show (edgeScan f c rest).get? (k + 1) = (rest.get? (k + 1)).map (f a)
      exact ih c k a h

/-- Components of a zipped cell. -/
theorem zip_get?_some {α β : Type} :
    ∀ (l1 : List α) (l2 : List β) (i : ℕ) (p : α × β),
      (l1.zip l2).get? i = some p → l1.get? i = some p.1 ∧ l2.get? i = some p.2 := by
  intro l1
  induction l1 with
  | nil =>
    intro l2 i p h
    exact absurd h (by simp)
  | cons a as ih =>
    intro l2 i p h
    cases l2 with
    | nil => exact absurd h (by simp)
    | cons b bs =>
      cases i with
      | zero =>
        have hp : (a, b) = p := Option.some.inj h
        rw [← hp]
        exact ⟨rfl, rfl⟩
      | succ k => exact ih bs k p h

/-- A cell cannot be both strictly above and at-or-below a threshold. -/
theorem optGT_optLE_false (o : Option ℚ) (t : ℚ)
    (h1 : optGT o t = true) (h2 : optLE o t = true) : False := by
  cases o with
  | none => simp [optGT] at h1
  | some x => exact absurd (of_decide_eq_true h1) (not_lt.mpr (of_decide_eq_true h2))

/-- A cell cannot be both strictly below and at-or-above a threshold. -/
theorem optLT_optGE_false (o : Option ℚ) (t : ℚ)
    (h1 : optLT o t = true) (h2 : optGE o t = true) : False := by
  cases o with
  | none => simp [optLT] at h1
  | some x => exact absurd (of_decide_eq_true h1) (not_lt.mpr (of_decide_eq_true h2))

/-- A pair of cells cannot be both strictly ordered one way and weakly the other. -/
theorem optGT2_optLE2_false (a b : Option ℚ)
    (h1 : optGT2 a b = true) (h2 : optLE2 a b = true) : False := by
  cases a with
  | none => simp [optGT2] at h1
  | some x =>
    cases b with
    | none => simp [optGT2] at h1
    | some y => exact absurd (of_decide_eq_true h1) (not_lt.mpr (of_decide_eq_true h2))

/-- A pair of cells cannot be both strictly ordered one way and weakly the other. -/
theorem optLT2_optGE2_false (a b : Option ℚ)
    (h1 : optLT2 a b = true) (h2 : optGE2 a b = true) : False := by
  cases a with
  | none => simp [optLT2] at h1
  | some x =>
    cases b with
    | none => simp [optLT2] at h1
    | some y => exact absurd (of_decide_eq_true h1) (not_lt.mpr (of_decide_eq_true h2))

/-- A momentum Buy requires the current bar above and the previous bar at or
below the threshold. -/
theorem momSigVal_eq_one (thr : ℚ) (prev cur : Option ℚ)
    (h : momSigVal thr prev cur = 1) :
    optGT cur thr = true ∧ optLE prev thr = true := by
  unfold momSigVal at h
  by_cases h1 : (optLT cur thr && optGE prev thr) = true
  · rw [if_pos h1] at h
    exact absurd h (by decide)
  · rw [if_neg h1] at h
    by_cases h2 : (optGT cur thr && optLE prev thr) = true
    · simp only [Bool.and_eq_true] at h2
      exact h2
    · rw [if_neg h2] at h
      exact absurd h (by decide)

/-- A momentum Sell requires the current bar below and the previous bar at or
above the threshold. -/
theorem momSigVal_eq_negone (thr : ℚ) (prev cur : Option ℚ)
    (h : momSigVal thr prev cur = -1) :
    optLT cur thr = true ∧ optGE prev thr = true := by
  unfold momSigVal at h
  by_cases h1 : (optLT cur thr && optGE prev thr) = true
  · simp only [Bool.and_eq_true] at h1
    exact h1
  · rw [if_neg h1] at h
    by_cases h2 : (optGT cur thr && optLE prev thr) = true
    · rw [if_pos h2] at h
      exact absurd h (by decide)
    · rw [if_neg h2] at h
      exact absurd h (by decide)

/-- A MACD Buy requires MACD above its signal line now and at or below it on
the previous bar. -/
theorem macdSigVal_eq_one (prev cur : Option ℚ × Option ℚ)
    (h : macdSigVal prev cur = 1) :
    optGT2 cur.1 cur.2 = true ∧ optLE2 prev.1 prev.2 = true := by
  unfold macdSigVal at h
  by_cases h1 : (optLT2 cur.1 cur.2 && optGE2 prev.1 prev.2) = true
  · rw [if_pos h1] at h
    exact absurd h (by decide)
  · rw [if_neg h1] at h
    by_cases h2 : (optGT2 cur.1 cur.2 && optLE2 prev.1 prev.2) = true
    · simp only [Bool.and_eq_true] at h2
      exact h2
    · rw [if_neg h2] at h
      exact absurd h (by decide)

/-- A MACD Sell requires MACD below its signal line now and at or above it on
the previous bar. -/
theorem macdSigVal_eq_negone (prev cur : Option ℚ × Option ℚ)
    (h : macdSigVal prev cur = -1) :
    optLT2 cur.1 cur.2 = true ∧ optGE2 prev.1 prev.2 = true := by
  unfold macdSigVal at h
  by_cases h1 : (optLT2 cur.1 cur.2 && optGE2 prev.1 prev.2) = true
  · simp only [Bool.and_eq_true] at h1
    exact h1
  · rw [if_neg h1] at h
    by_cases h2 : (optGT2 cur.1 cur.2 && optLE2 prev.1 prev.2) = true
    · rw [if_pos h2] at h
      exact absurd h (by decide)
    · rw [if_neg h2] at h
      exact absurd h (by decide)

/-- A momentum signal at bar `k + 1` is computed from the oscillator cells at
bars `k` and `k + 1`. -/
theorem momEdge_succ_prev (thr : ℚ) (rsi : List (Option ℚ)) (k : ℕ) (v : ℤ)
    (h : (momEdge thr rsi).get? (k + 1) = some v) :
    ∃ prev cur, atIdx rsi k = prev ∧ rsi.get? (k + 1) = some cur ∧
      momSigVal thr prev cur = v := by
  have hlen : k + 1 < rsi.length := by
    obtain ⟨hlt, -⟩ := List.get?_eq_some.mp h
    rw [show (momEdge thr rsi).length = rsi.length from edgeScan_length _ _ _] at hlt
    exact hlt
  have hk : k < rsi.length := Nat.lt_of_succ_lt hlen
  obtain ⟨prev, hprev⟩ : ∃ p, rsi.get? k = some p := ⟨_, List.get?_eq_get hk⟩
  rw [show momEdge thr rsi = edgeScan (momSigVal thr) none rsi from rfl,
    edgeScan_get?_succ (momSigVal thr) rsi none k prev hprev] at h
  obtain ⟨cur, hcur, hval⟩ := Option.map_eq_some'.mp h
  refine ⟨prev, cur, ?_, hcur, hval⟩
  unfold atIdx
  rw [hprev]
  rfl

/-- A MACD signal at bar `k + 1` is computed from the `(macd, macd_signal)`
pairs at bars `k` and `k + 1`. -/
theorem macdEdge_succ_prev (macd msig : List (Option ℚ)) (k : ℕ) (v : ℤ)
    (h : (macdEdge macd msig).get? (k + 1) = some v) :
    ∃ prev cur, atIdx macd k = prev.1 ∧ atIdx msig k = prev.2 ∧
      macdSigVal prev cur = v := by
  have hlen : k + 1 < (macd.zip msig).length := by
    obtain ⟨hlt, -⟩ := List.get?_eq_some.mp h
    rw [show (macdEdge macd msig).length = (macd.zip msig).length from
      edgeScan_length _ _ _] at hlt
    exact hlt
  have hk : k < (macd.zip msig).length := Nat.lt_of_succ_lt hlen
  obtain ⟨prev, hprev⟩ : ∃ p, (macd.zip msig).get? k = some p :=
    ⟨_, List.get?_eq_get hk⟩
  rw [show macdEdge macd msig = edgeScan macdSigVal (none, none) (macd.zip msig)
      from rfl,
    edgeScan_get?_succ macdSigVal (macd.zip msig) (none, none) k prev hprev] at h
  obtain ⟨cur, _, hval⟩ := Option.map_eq_some'.mp h
  obtain ⟨h1, h2⟩ := zip_get?_some macd msig k prev hprev
  refine ⟨prev, cur, ?_, ?_, hval⟩
  · unfold atIdx
    rw [h1]
    rfl
  · unfold atIdx
    rw [h2]
    rfl

/-- The momentum scan emits Hold at the first bar (the shifted previous value
is `NaN`, so both edge masks are `False`). -/
theorem momEdge_first (thr : ℚ) (rsi : List (Option ℚ)) :
    sigAt (momEdge thr rsi) 0 = 0 := by
  cases rsi with
  | nil => rfl
  | cons r rest =>
    show momSigVal thr none r = 0
    unfold momSigVal
    rw [show optGE none thr = false from rfl, show optLE none thr = false from rfl,
      Bool.and_false, Bool.and_false]
    rfl

/-- The MACD scan emits Hold at the first bar. -/
theorem macdEdge_first (macd msig : List (Option ℚ)) :
    sigAt (macdEdge macd msig) 0 = 0 := by
  cases macd with
  | nil => rfl
  | cons m mr =>
    cases msig with
    | nil => rfl
    | cons s sr =>
      show macdSigVal (none, none) (m, s) = 0
      unfold macdSigVal
      rw [show optGE2 (none, none).1 (none, none).2 = false from rfl,
        show optLE2 (none, none).1 (none, none).2 = false from rfl,
        Bool.and_false, Bool.and_false]
      rfl

/-- Claim C4: the edge-triggered strategies (momentum, MACD) emit no signal at
the first bar of the table, and within any unbroken stretch `[a, b]` of bars on
which the buy (resp. sell) condition holds, no bar after the first can carry a
Buy (resp. Sell) — so each stretch carries at most one, at its first bar. -/
theorem claim_C4_edge_triggered :
    (∀ (thr : ℚ) (rsi : List (Option ℚ)), sigAt (momEdge thr rsi) 0 = 0) ∧
    (∀ (macd msig : List (Option ℚ)), sigAt (macdEdge macd msig) 0 = 0) ∧
    (∀ (thr : ℚ) (rsi : List (Option ℚ)) (a b : ℕ),
      (∀ k ∈ Finset.Icc a b, momBuyCond thr rsi k = true) →
      ∀ j, a < j → j ≤ b → sigAt (momEdge thr rsi) j ≠ 1) ∧
    (∀ (thr : ℚ) (rsi : List (Option ℚ)) (a b : ℕ),
      (∀ k ∈ Finset.Icc a b, momSellCond thr rsi k = true) →
      ∀ j, a < j → j ≤ b → sigAt (momEdge thr rsi) j ≠ -1) ∧
    (∀ (macd msig : List (Option ℚ)) (a b : ℕ),
      (∀ k ∈ Finset.Icc a b, macdBuyCond macd msig k = true) →
      ∀ j, a < j → j ≤ b → sigAt (macdEdge macd msig) j ≠ 1) ∧
    (∀ (macd msig : List (Option ℚ)) (a b : ℕ),
      (∀ k ∈ Finset.Icc a b, macdSellCond macd msig k = true) →
      ∀ j, a < j → j ≤ b → sigAt (macdEdge macd msig) j ≠ -1) := by
  refine ⟨momEdge_first, macdEdge_first, ?_, ?_, ?_, ?_⟩
  · intro thr rsi a b hstr j haj hjb hsig
    obtain ⟨k, rfl⟩ : ∃ k, j = k + 1 := ⟨j - 1, by omega⟩
    have hg : (momEdge thr rsi).get? (k + 1) = some 1 := by
      unfold sigAt at hsig
      cases hc : (momEdge thr rsi).get? (k + 1) with
      | none => rw [hc] at hsig; exact absurd hsig (by decide)
      | some v =>
        rw [hc] at hsig
        have hv : v = 1 := hsig
        rw [hv]
    obtain ⟨prev, cur, hatp, hcur, hval⟩ := momEdge_succ_prev thr rsi k 1 hg
    obtain ⟨-, hle⟩ := momSigVal_eq_one thr prev cur hval
    have hcond : momBuyCond thr rsi k = true :=
      hstr k (Finset.mem_Icc.mpr ⟨by omega, by omega⟩)
    rw [momBuyCond, hatp] at hcond
    exact optGT_optLE_false prev thr hcond hle
  · intro thr rsi a b hstr j haj hjb hsig
    obtain ⟨k, rfl⟩ : ∃ k, j = k + 1 := ⟨j - 1, by omega⟩
    have hg : (momEdge thr rsi).get? (k + 1) = some (-1) := by
      unfold sigAt at hsig
      cases hc : (momEdge thr rsi).get? (k + 1) with
      | none => rw [hc] at hsig; exact absurd hsig (by decide)
      | some v =>
        rw [hc] at hsig
        have hv : v = -1 := hsig
        rw [hv]
    obtain ⟨prev, cur, hatp, hcur, hval⟩ := momEdge_succ_prev thr rsi k (-1) hg
    obtain ⟨-, hge⟩ := momSigVal_eq_negone thr prev cur hval
    have hcond : momSellCond thr rsi k = true :=
      hstr k (Finset.mem_Icc.mpr ⟨by omega, by omega⟩)
    rw [momSellCond, hatp] at hcond
    exact optLT_optGE_false prev thr hcond hge
  · intro macd msig a b hstr j haj hjb hsig
    obtain ⟨k, rfl⟩ : ∃ k, j = k + 1 := ⟨j - 1, by omega⟩
    have hg : (macdEdge macd msig).get? (k + 1) = some 1 := by
      unfold sigAt at hsig
      cases hc : (macdEdge macd msig).get? (k + 1) with
      | none => rw [hc] at hsig; exact absurd hsig (by decide)
      | some v =>
        rw [hc] at hsig
        have hv : v = 1 := hsig
        rw [hv]
    obtain ⟨prev, cur, hp1, hp2, hval⟩ := macdEdge_succ_prev macd msig k 1 hg
    obtain ⟨-, hle⟩ := macdSigVal_eq_one prev cur hval
    have hcond : macdBuyCond macd msig k = true :=
      hstr k (Finset.mem_Icc.mpr ⟨by omega, by omega⟩)
    rw [macdBuyCond, hp1, hp2] at hcond
    exact optGT2_optLE2_false prev.1 prev.2 hcond hle
  · intro macd msig a b hstr j haj hjb hsig
    obtain ⟨k, rfl⟩ : ∃ k, j = k + 1 := ⟨j - 1, by omega⟩
    have hg : (macdEdge macd msig).get? (k + 1) = some (-1) := by
      unfold sigAt at hsig
      cases hc : (macdEdge macd msig).get? (k + 1) with
      | none => rw [hc] at hsig; exact absurd hsig (by decide)
      | some v =>
        rw [hc] at hsig
        have hv : v = -1 := hsig
        rw [hv]
    obtain ⟨prev, cur, hp1, hp2, hval⟩ := macdEdge_succ_prev macd msig k (-1) hg
    obtain ⟨-, hge⟩ := macdSigVal_eq_negone prev cur hval
    have hcond : macdSellCond macd msig k = true :=
      hstr k (Finset.mem_Icc.mpr ⟨by omega, by omega⟩)
    rw [macdSellCond, hp1, hp2] at hcond
    exact optLT2_optGE2_false prev.1 prev.2 hcond hge

/-- Witness for claim C4: on the oscillator column [40, 60, 70] with threshold
50, bars 1 and 2 form a buy-condition stretch, and bar 2 (inside the stretch)
carries no Buy. -/
theorem claim_C4_edge_triggered_witness :
    sigAt (momEdge 50 [some 40, some 60, some 70]) 2 ≠ 1 :=
  claim_C4_edge_triggered.2.2.1 50 [some 40, some 60, some 70] 1 2
    (by decide) 2 (by decide) (by decide)

/-! ### Missing-column behaviour and the momentum fallback (claims C7, C9) -/

/-- Reading an absent column raises `KeyError`. -/
theorem getCol_error_of_missing (df : Frame) (name : String)
    (h : hasCol df name = false) : getCol df name = Except.error Err.keyError := by
  unfold getCol
  cases hl : List.lookup name df with
  | none => rfl
  | some v =>
    unfold hasCol at h
    rw [hl] at h
    simp at h

/-- Reading a present column returns it. -/
theorem getCol_ok_of_present (df : Frame) (name : String)
    (h : hasCol df name = true) :
    ∃ col, List.lookup name df = some col ∧ getCol df name = Except.ok col := by
  unfold hasCol at h
  cases hl : List.lookup name df with
  | none =>
    rw [hl] at h
    simp at h
  | some v =>
    refine ⟨v, rfl, ?_⟩
    unfold getCol
    rw [hl]

/-- Mean reversion with `rsi_14` absent fails with `KeyError`. -/
theorem meanrev_missing_rsi (oversold overbought : ℚ) (df : Frame)
    (h : hasCol df "rsi_14" = false) :
    mean_reversion_generate_signals oversold overbought df =
      Except.error Err.keyError := by
  unfold mean_reversion_generate_signals
  rw [getCol_error_of_missing df "rsi_14" h]
  rfl

/-- MACD with the `macd` column absent fails with `KeyError`. -/
theorem macd_missing_macd (df : Frame) (h : hasCol df "macd" = false) :
    macd_generate_signals df = Except.error Err.keyError := by
  unfold macd_generate_signals
  rw [getCol_error_of_missing df "macd" h]
  rfl

/-- MACD with the `macd_signal` column absent fails with `KeyError`
(whether or not `macd` itself is present). -/
theorem macd_missing_signal (df : Frame) (h : hasCol df "macd_signal" = false) :
    macd_generate_signals df = Except.error Err.keyError := by
  unfold macd_generate_signals
  cases hb : hasCol df "macd" with
  | false =>
    rw [getCol_error_of_missing df "macd" hb]
    rfl
  | true =>
    obtain ⟨col, -, hok⟩ := getCol_ok_of_present df "macd" hb
    rw [hok, getCol_error_of_missing df "macd_signal" h]
    rfl

/-- Momentum with both the period-specific column and the `rsi_14` fallback
absent fails with `KeyError`. -/
theorem momentum_missing_both (period : ℕ) (thr : ℚ) (df : Frame)
    (h1 : hasCol df (rsiColName period) = false) (h2 : hasCol df "rsi_14" = false) :
    momentum_generate_signals period thr df = Except.error Err.keyError := by
  show Except.map (momEdge thr)
      (getCol df (if hasCol df (rsiColName period) then rsiColName period
        else "rsi_14")) = Except.error Err.keyError
  rw [if_neg (by simp [h1]), getCol_error_of_missing df "rsi_14" h2]
  rfl

/-- Trend following with the fast moving-average column absent fails with
`KeyError`. -/
theorem trend_missing_fast (fast slow : ℕ) (df : Frame)
    (h : hasCol df (smaColName fast) = false) :
    trend_generate_signals fast slow df = Except.error Err.keyError := by
  unfold trend_generate_signals
  rw [getCol_error_of_missing df (smaColName fast) h]
  rfl

/-- Trend following with the slow moving-average column absent fails with
`KeyError`. -/
theorem trend_missing_slow (fast slow : ℕ) (df : Frame)
    (h : hasCol df (smaColName slow) = false) :
    trend_generate_signals fast slow df = Except.error Err.keyError := by
  unfold trend_generate_signals
  cases hb : hasCol df (smaColName fast) with
  | false =>
    rw [getCol_error_of_missing df (smaColName fast) hb]
    rfl
  | true =>
    obtain ⟨col, -, hok⟩ := getCol_ok_of_present df (smaColName fast) hb
    rw [hok, getCol_error_of_missing df (smaColName slow) h]
    rfl

/-- Bollinger with the `close` column absent fails with `KeyError`. -/
theorem boll_missing_close (df : Frame) (h : hasCol df "close" = false) :
    bollinger_generate_signals df = Except.error Err.keyError := by
  unfold bollinger_generate_signals
  rw [getCol_error_of_missing df "close" h]
  rfl

/-- Bollinger with the `bb_upper` column absent fails with `KeyError`. -/
theorem boll_missing_upper (df : Frame) (h : hasCol df "bb_upper" = false) :
    bollinger_generate_signals df = Except.error Err.keyError := by
  unfold bollinger_generate_signals
  cases hb : hasCol df "close" with
  | false =>
    rw [getCol_error_of_missing df "close" hb]
    rfl
  | true =>
    obtain ⟨col, -, hok⟩ := getCol_ok_of_present df "close" hb
    rw [hok, getCol_error_of_missing df "bb_upper" h]
    rfl

/-- Bollinger with the `bb_lower` column absent fails with `KeyError`. -/
theorem boll_missing_lower (df : Frame) (h : hasCol df "bb_lower" = false) :
    bollinger_generate_signals df = Except.error Err.keyError := by
  unfold bollinger_generate_signals
  cases hb : hasCol df "close" with
  | false =>
    rw [getCol_error_of_missing df "close" hb]
    rfl
  | true =>
    obtain ⟨col, -, hok⟩ := getCol_ok_of_present df "close" hb
    rw [hok]
    cases hu : hasCol df "bb_upper" with
    | false =>
      rw [getCol_error_of_missing df "bb_upper" hu]
      rfl
    | true =>
      obtain ⟨ucol, -, huok⟩ := getCol_ok_of_present df "bb_upper" hu
      rw [huok, getCol_error_of_missing df "bb_lower" h]
      rfl

/-- Momentum reads the period-specific oscillator column when it is present. -/
theorem momentum_uses_specific (period : ℕ) (thr : ℚ) (df : Frame)
    (h : hasCol df (rsiColName period) = true) :
    momentum_generate_signals period thr df =
      Except.map (momEdge thr) (getCol df (rsiColName period)) := by
  show Except.map (momEdge thr)
      (getCol df (if hasCol df (rsiColName period) then rsiColName period
        else "rsi_14")) = _
  rw [if_pos h]

/-- Momentum falls back to the fixed `rsi_14` column when the period-specific
column is absent. -/
theorem momentum_uses_fallback (period : ℕ) (thr : ℚ) (df : Frame)
    (h : hasCol df (rsiColName period) = false) :
    momentum_generate_signals period thr df =
      Except.map (momEdge thr) (getCol df "rsi_14") := by
  show Except.map (momEdge thr)
      (getCol df (if hasCol df (rsiColName period) then rsiColName period
        else "rsi_14")) = _
  rw [if_neg (by simp [h])]

/-- Claim C7 (amended): for every strategy variant, a bar table lacking a
required indicator column (with no available fallback) makes `generate_signals`
fail with the pandas `KeyError` — not silently default the column; the
`MissingIndicatorError` class named by the specification does not exist in the
source. -/
theorem claim_C7_missing_column_fails :
    (∀ (oversold overbought : ℚ) (df : Frame), hasCol df "rsi_14" = false →
      mean_reversion_generate_signals oversold overbought df =
        Except.error Err.keyError) ∧
    (∀ df : Frame, hasCol df "macd" = false →
      macd_generate_signals df = Except.error Err.keyError) ∧
    (∀ df : Frame, hasCol df "macd_signal" = false →
      macd_generate_signals df = Except.error Err.keyError) ∧
    (∀ (period : ℕ) (thr : ℚ) (df : Frame), hasCol df (rsiColName period) = false →
      hasCol df "rsi_14" = false →
      momentum_generate_signals period thr df = Except.error Err.keyError) ∧
    (∀ (fast slow : ℕ) (df : Frame), hasCol df (smaColName fast) = false →
      trend_generate_signals fast slow df = Except.error Err.keyError) ∧
    (∀ (fast slow : ℕ) (df : Frame), hasCol df (smaColName slow) = false →
      trend_generate_signals fast slow df = Except.error Err.keyError) ∧
    (∀ df : Frame, hasCol df "close" = false →
      bollinger_generate_signals df = Except.error Err.keyError) ∧
    (∀ df : Frame, hasCol df "bb_upper" = false →
      bollinger_generate_signals df = Except.error Err.keyError) ∧
    (∀ df : Frame, hasCol df "bb_lower" = false →
      bollinger_generate_signals df = Except.error Err.keyError) :=
  ⟨meanrev_missing_rsi, macd_missing_macd, macd_missing_signal,
   momentum_missing_both, trend_missing_fast, trend_missing_slow,
   boll_missing_close, boll_missing_upper, boll_missing_lower⟩

/-- Witness for claim C7 on a table that has a `close` column but no `rsi_14`. -/
theorem claim_C7_missing_column_fails_witness :
    mean_reversion_generate_signals 30 70 [("close", [some 1])] =
      Except.error Err.keyError :=
  claim_C7_missing_column_fails.1 30 70 [("close", [some 1])] (by decide)

/-- Claim C7 counterexample: on an empty bar table, mean reversion fails with
`KeyError`, not with the `MissingIndicatorError` the claim names (no such class
exists in the source). -/
theorem claim_C7_cex :
    mean_reversion_generate_signals 30 70 [] = Except.error Err.keyError ∧
      mean_reversion_generate_signals 30 70 [] ≠
        Except.error Err.missingIndicatorError := by
  refine ⟨rfl, ?_⟩
  intro h
  rw [show mean_reversion_generate_signals 30 70 [] = Except.error Err.keyError
    from rfl] at h
  simp at h

/-- Claim C9: momentum reads `rsi_{rsi_period}` when present and otherwise falls
back to `rsi_14`, with signal generation otherwise identical (`momEdge` in both
branches); no other strategy variant has a fallback — each fails with `KeyError`
on its missing column. -/
theorem claim_C9_momentum_fallback :
    (∀ (period : ℕ) (thr : ℚ) (df : Frame), hasCol df (rsiColName period) = true →
      momentum_generate_signals period thr df =
        Except.map (momEdge thr) (getCol df (rsiColName period))) ∧
    (∀ (period : ℕ) (thr : ℚ) (df : Frame), hasCol df (rsiColName period) = false →
      momentum_generate_signals period thr df =
        Except.map (momEdge thr) (getCol df "rsi_14")) ∧
    (∀ (oversold overbought : ℚ) (df : Frame), hasCol df "rsi_14" = false →
      mean_reversion_generate_signals oversold overbought df =
        Except.error Err.keyError) ∧
    (∀ df : Frame, hasCol df "macd" = false →
      macd_generate_signals df = Except.error Err.keyError) ∧
    (∀ (fast slow : ℕ) (df : Frame), hasCol df (smaColName fast) = false →
      trend_generate_signals fast slow df = Except.error Err.keyError) ∧
    (∀ df : Frame, hasCol df "close" = false →
      bollinger_generate_signals df = Except.error Err.keyError) :=
  ⟨momentum_uses_specific, momentum_uses_fallback, meanrev_missing_rsi,
   macd_missing_macd, trend_missing_fast, boll_missing_close⟩

/-- Witness for claim C9: with an `rsi_7` column present, a period-7 momentum
strategy reads it; with only `rsi_14` present, a period-7 strategy falls back. -/
theorem claim_C9_momentum_fallback_witness :
    momentum_generate_signals 7 50 [("rsi_7", [some 60])] =
        Except.map (momEdge 50) (getCol [("rsi_7", [some 60])] (rsiColName 7)) ∧
      momentum_generate_signals 7 50 [("rsi_14", [some 60])] =
        Except.map (momEdge 50) (getCol [("rsi_14", [some 60])] "rsi_14") :=
  ⟨claim_C9_momentum_fallback.1 7 50 [("rsi_7", [some 60])] (by decide),
   claim_C9_momentum_fallback.2.1 7 50 [("rsi_14", [some 60])] (by decide)⟩

/-! ### Comparison orchestrator (claim C5) -/

/-- Claim C5 (amended): whenever at least one strategy's backtest succeeds,
`run_comparison` returns a table with exactly one row per successful strategy
(failing strategies are excluded, the others all run), sorted by descending
Sharpe ratio; and in the concrete scenario of three strategies of which one
raises a `ConfigurationError`, the table contains exactly the other two. -/
theorem claim_C5_comparison_isolation :
    (∀ strategies : List (String × Except Err BacktestMetrics),
      successRows strategies ≠ [] →
      ∃ rows, run_comparison strategies = Except.ok rows ∧
        rows.Perm (successRows strategies) ∧ rows.Sorted sharpeDesc) ∧
    (run_comparison
        [("Mean Reversion", Except.ok ⟨0, 1, 0, 0, 0⟩),
         ("Momentum", Except.error Err.configurationError),
         ("MACD", Except.ok ⟨0, 2, 0, 0, 0⟩)] =
      Except.ok
        [⟨"MACD", ⟨0, 2, 0, 0, 0⟩⟩, ⟨"Mean Reversion", ⟨0, 1, 0, 0, 0⟩⟩]) := by
  constructor
  · intro strategies hne
    refine ⟨(successRows strategies).insertionSort sharpeDesc, ?_, ?_, ?_⟩
    · show (if (successRows strategies).isEmpty then Except.error Err.keyError
        else Except.ok ((successRows strategies).insertionSort sharpeDesc)) = _
      cases hs : successRows strategies with
      | nil => exact absurd hs hne
      | cons r rs => rfl
    · exact List.perm_insertionSort sharpeDesc _
    · exact List.sorted_insertionSort sharpeDesc _
  · rfl

/-- Witness for claim C5 on a two-strategy list with one failure. -/
theorem claim_C5_comparison_isolation_witness :
    ∃ rows, run_comparison
        [("A", Except.ok ⟨0, 1, 0, 0, 0⟩),
         ("B", Except.error Err.configurationError)] = Except.ok rows ∧
      rows.Perm (successRows
        [("A", Except.ok ⟨0, 1, 0, 0, 0⟩),
         ("B", Except.error Err.configurationError)]) ∧
      rows.Sorted sharpeDesc :=
  claim_C5_comparison_isolation.1
    [("A", Except.ok ⟨0, 1, 0, 0, 0⟩), ("B", Except.error Err.configurationError)]
    (by decide)

/-- Claim C5 counterexample: when every strategy fails, `run_comparison` does
not return a table at all — `pd.DataFrame([]).sort_values('Sharpe Ratio')`
raises `KeyError` — so "the returned table contains exactly one row per
successful strategy" fails for a single failing strategy. -/
theorem claim_C5_cex :
    run_comparison [("Mean Reversion", Except.error Err.configurationError)] =
        Except.error Err.keyError ∧
      (run_comparison
        [("Mean Reversion", Except.error Err.configurationError)]).isOk = false :=
  ⟨rfl, rfl⟩
